import Mathlib

/-!
Shallow embedding of the `ultraclick` package (src/src/ultraclick/__init__.py)
for verification of its specification.  Python values that flow through the
framework (context `meta` entries, command return values, JSON decode results)
are modelled by the inductive `PyVal`; Python truthiness by `truthy`; Python
`str`/`repr` by `pyStr`/`pyRepr` (string `repr` is modelled without escape
sequences, which is faithful for strings free of quotes and backslashes).
Machinery that prints (`click.echo`, console messages) is modelled by returning
the list of emitted lines alongside the result.
-/

/-- Model of the Python values handled by the framework: `None`, booleans,
integers, strings, lists and string-keyed dicts. -/
inductive PyVal : Type where
  | none : PyVal
  | bool (b : Bool) : PyVal
  | int (n : Int) : PyVal
  | str (s : String) : PyVal
  | list (xs : List PyVal) : PyVal
  | dict (kvs : List (String × PyVal)) : PyVal

/-- Python truthiness (`bool(v)`): `None`, `False`, `0`, `""`, `[]` and
`{}` are falsy, everything else truthy.  (No recursion is needed: a non-empty
collection is truthy regardless of its elements.) -/
def truthy : PyVal → Bool
  | .none => false
  | .bool b => b
  | .int n => n != 0
  | .str s => s != ""
  | .list xs => !xs.isEmpty
  | .dict kvs => !kvs.isEmpty

mutual

/-- Python `repr` on the modelled values (string escaping omitted). -/
def pyRepr : PyVal → String
  | .none => "None"
  | .bool b => if b then "True" else "False"
  | .int n => toString n
  | .str s => "\x27" ++ s ++ "\x27"
  | .list xs => "[" ++ String.intercalate ", " (pyReprList xs) ++ "]"
  | .dict kvs => "\x7b" ++ String.intercalate ", " (pyReprDict kvs) ++ "\x7d"

/-- Helper of `pyRepr` for list elements. -/
def pyReprList : List PyVal → List String
  | [] => []
  | v :: rest => pyRepr v :: pyReprList rest

/-- Helper of `pyRepr` for dict entries. -/
def pyReprDict : List (String × PyVal) → List String
  | [] => []
  | (k, v) :: rest => ("\x27" ++ k ++ "\x27: " ++ pyRepr v) :: pyReprDict rest

end

/-- Python `str` on the modelled values: identity on strings, `repr`
otherwise (as for `None`, booleans, ints, lists, dicts). -/
def pyStr : PyVal → String
  | .str s => s
  | v => pyRepr v

/-!
`RichCommand.invoke` (src/src/ultraclick/__init__.py lines 56-72): after the
underlying callback returns `result`, the framework echoes a rendering of it
(`None`: nothing; list: one `click.echo(item)` per element; dict: one
`click.echo(f"key: value")` per entry, a list value being first replaced by
`", ".join(map(str, value))`; anything else: echoed as is) and passes `result`
through unchanged.  `click.echo(x)` prints `str(x)` for non-string `x`.
-/

/-- Rendering of one dict entry in `RichCommand.invoke`. -/
def dictEntryLine (k : String) (v : PyVal) : String :=
  k ++ ": " ++ (match v with
    | .list xs => String.intercalate ", " (xs.map pyStr)
    | w => pyStr w)

/-- Model of `RichCommand.invoke` given the callback result: the list of
echoed lines together with the (unchanged) returned value. -/
def rich_command_invoke (result : PyVal) : List String × PyVal :=
  let out : List String :=
    match result with
    | .none => []
    | .list items => items.map pyStr
    | .dict entries => entries.map (fun kv => dictEntryLine kv.1 kv.2)
    | r => [pyStr r]
  (out, result)

/-!
`RichGroup.get_command` (lines 75-87): exact lookup first; otherwise collect
the registered names starting with the typed token; none ⇒ `None`, exactly
one ⇒ exact lookup of that full name, several ⇒ echo the ambiguity message
and fall back to the base class lookup (which already failed, hence `None`).
The registry `commands` is modelled as an association list keyed by the
registered command name; `list_commands` yields its keys (click sorts them,
which only permutes the ambiguity message and is irrelevant to the claims).
-/

/-- Model of Python `str.startswith` (case-sensitive): a prefix test on the
character sequences of the two strings. -/
def py_startswith (s p : String) : Bool :=
  p.data.isPrefixOf s.data

/-- Message echoed by `RichGroup.get_command` on an ambiguous abbreviation. -/
def not_unique_msg (cmd_name : String) (conflicts : List String) : String :=
  "\n\n\"" ++ cmd_name ++ "\" is not unique: " ++ String.intercalate ", " conflicts ++ "\n"

/-- Model of `RichGroup.get_command`: resolved command (if any) and echoed
lines, over a command registry of entries `(registered name, command)`. -/
def get_command {α : Type} (commands : List (String × α)) (cmd_name : String) :
    Option α × List String :=
  match List.lookup cmd_name commands with
  | some rv => (some rv, [])
  | Option.none =>
    match (commands.map Prod.fst).filter (fun x => py_startswith x cmd_name) with
    | [] => (Option.none, [])
    | [m] => (List.lookup m commands, [])
    | ms => (List.lookup cmd_name commands, [not_unique_msg cmd_name ms])

/-!
`RichGroup.resolve_command` (lines 89-96) overrides click's
`Group.resolve_command`, which takes the first remaining argv token, resolves
it through `get_command`, and fails with "No such command" when resolution
yields nothing (unless the context is in resilient parsing mode, where it
returns an empty triple).  The override replaces the typed token by the
resolved command's own `name` attribute in the returned triple.  The base
class behaviour is part of the external click library and is embedded here
from its documented contract.
-/

/-- Model of a click command object as far as resolution is concerned: its
`name` attribute plus an opaque payload. -/
structure Cmd (α : Type) : Type where
  name : String
  payload : α

/-- Embedding of click's `Group.resolve_command` (external base class): pop
the first token, resolve it via `get_command`; on failure raise a usage error
(or, in resilient parsing mode, return an empty result). -/
def base_resolve_command {α : Type} (commands : List (String × Cmd α))
    (cmd_name : String) (rest : List String) (resilient_parsing : Bool) :
    Except String (Option String × Option (Cmd α) × List String) :=
  match (get_command commands cmd_name).1 with
  | some cmd => .ok (some cmd_name, some cmd, rest)
  | Option.none =>
    if resilient_parsing then .ok (Option.none, Option.none, [])
    else .error ("No such command " ++ "\x27" ++ cmd_name ++ "\x27.")

/-- Model of `RichGroup.resolve_command`: delegate to the base class, then, if
a command was found, report its canonical `name` instead of the typed token. -/
def resolve_command {α : Type} (commands : List (String × Cmd α))
    (cmd_name : String) (rest : List String) (resilient_parsing : Bool) :
    Except String (Option String × Option (Cmd α) × List String) :=
  match base_resolve_command commands cmd_name rest resilient_parsing with
  | .error e => .error e
  | .ok (n, Option.none, args) => .ok (n, Option.none, args)
  | .ok (_, some cmd, args) => .ok (some cmd.name, some cmd, args)

/-!
`wrap_command_with_context` (lines 121-139): the wrapper fetches
`ctx.meta.get(instance_key)` (i.e. `None` when the key is absent), raises
`ValueError` when the fetched value is falsy, and otherwise calls the
unwrapped original callback with the instance prepended to the arguments.
The context `meta` mapping is modelled as an association list.
-/

/-- Context `meta` mapping. -/
abbrev Meta : Type := List (String × PyVal)

/-- Model of `dict.get(key)`: the stored value, or `None` when absent. -/
def metaGet (m : Meta) (k : String) : PyVal :=
  (List.lookup k m).getD .none

/-- Model of `dict.get(key, default)`. -/
def metaGetD (m : Meta) (k : String) (default : PyVal) : PyVal :=
  (List.lookup k m).getD default

/-- Model of `dict[key] = value`: replace the stored value or append. -/
def metaSet (m : Meta) (k : String) (v : PyVal) : Meta :=
  if (List.lookup k m).isSome then
    m.map (fun kv => if kv.1 = k then (k, v) else kv)
  else m ++ [(k, v)]

/-- Error message raised by the context-injecting wrapper. -/
def instance_not_found_msg (instance_key : String) : String :=
  "Instance for key \x27" ++ instance_key ++ "\x27 not found in context."

/-- Model of the `wrapped_fn` closure produced by `wrap_command_with_context`:
look up `instance_key` in the context meta, raise if the result is falsy,
otherwise call the original callback with the instance prepended. -/
def wrapped_fn {α : Type} (meta : Meta) (instance_key : String)
    (command_fn : PyVal → List PyVal → α) (args : List PyVal) : Except String α :=
  let inst := metaGet meta instance_key
  if truthy inst then .ok (command_fn inst args)
  else .error (instance_not_found_msg instance_key)

/-!
`group_from_class` (lines 161-221).  The `instance_key` computation (line
172) is `f"{parent_key}.{name}" if parent_key else name`, where `parent_key`
is `None` for the root call and a (non-empty, in practice) string for
recursive calls; Python truthiness makes both `None` and `""` select the bare
name.  Nested group classes are rebuilt recursively with
`name=attr_name.lower()` and `parent_key=instance_key` (line 218).
-/

/-- Model of the `instance_key` computation of `group_from_class`:
`f"{parent_key}.{name}" if parent_key else name` with Python truthiness of
`parent_key` (absent or empty string both count as no parent). -/
def instance_key_of (parent_key : Option String) (name : String) : String :=
  match parent_key with
  | Option.none => name
  | some p => if p = "" then name else p ++ "." ++ name

/-- Declarative class tree handed to `group_from_class`: the attribute name
under which the parent declared this class, the class name (`__name__`), and
the nested group classes among its attributes. -/
inductive ClassDef : Type where
  | mk (attrName : String) (className : String) (nested : List ClassDef)

/-- Attribute name of a declarative class. -/
def ClassDef.attrName : ClassDef → String
  | .mk a _ _ => a

/-- Class name of a declarative class. -/
def ClassDef.className : ClassDef → String
  | .mk _ c _ => c

/-- Nested group classes of a declarative class. -/
def ClassDef.nested : ClassDef → List ClassDef
  | .mk _ _ n => n

/-- Dispatch node produced by `group_from_class`: the group's dispatch name,
its `instance_key`, and its nested groups. -/
inductive GroupNode : Type where
  | mk (name : String) (instanceKey : String) (children : List GroupNode)

/-- Dispatch name of a group node. -/
def GroupNode.name : GroupNode → String
  | .mk n _ _ => n

/-- Instance key of a group node. -/
def GroupNode.instanceKey : GroupNode → String
  | .mk _ k _ => k

/-- Nested groups of a group node. -/
def GroupNode.children : GroupNode → List GroupNode
  | .mk _ _ c => c

mutual

/-- Model of `group_from_class` restricted to the tree structure: derive the
dispatch name (explicit override or lower-cased class name), compute the
`instance_key` from the parent key, and recurse into nested classes with
`name=attr_name.lower()` and `parent_key=instance_key`. -/
def group_from_class (cls : ClassDef) (name : Option String)
    (parent_key : Option String) : GroupNode :=
  match cls with
  | .mk _ className nested =>
    let n := match name with
      | Option.none => className.toLower
      | some s => s
    let key := instance_key_of parent_key n
    .mk n key (group_from_class_nested nested key)

/-- Recursion of `group_from_class` over the nested group classes. -/
def group_from_class_nested (nested : List ClassDef) (parent_key : String) :
    List GroupNode :=
  match nested with
  | [] => []
  | c :: rest =>
    group_from_class c (some c.attrName.toLower) (some parent_key) ::
      group_from_class_nested rest parent_key

end

/-!
`group_cmd` (lines 174-191), the body of every generated group: seed the
context meta from the supplied initial snapshot when the meta is empty and
the snapshot is truthy (non-empty); set `show_help_on_no_command` to `True`;
construct the user instance (the user `__init__` may echo output and mutate
the meta, e.g. clear the flag); store the instance under `instance_key`; and,
when no subcommand was invoked and `ctx.meta.get('show_help_on_no_command',
True)` is truthy, echo the group's help text.  The user initializer is
modelled as a function from the (already seeded and flagged) meta and
`ctx.invoked_subcommand` to the mutated meta, its echoed lines, and the
constructed instance.
-/

/-- Key of the help-suppression flag. -/
def show_help_key : String := "show_help_on_no_command"

/-- Meta as seen by the user initializer: seeded from the initial snapshot
when the meta is empty and the snapshot is non-empty (Python `if not ctx.meta
and initial_ctx_meta`), then `show_help_on_no_command` set to `True`. -/
def group_cmd_entry_meta (initial_ctx_meta meta0 : Meta) : Meta :=
  let m1 := if meta0.isEmpty ∧ ¬ initial_ctx_meta.isEmpty then initial_ctx_meta else meta0
  metaSet m1 show_help_key (.bool true)

/-- Model of `group_cmd` (the generated group body).  Arguments: the initial
meta snapshot supplied at build time, the user initializer, this group's
`instance_key`, the meta at entry, `ctx.invoked_subcommand`, and the group's
help text.  Result: the final meta and the echoed lines. -/
def group_cmd (initial_ctx_meta : Meta)
    (init : Meta → Option String → Meta × List String × PyVal)
    (instance_key : String) (meta0 : Meta) (invoked_subcommand : Option String)
    (helpText : String) : Meta × List String :=
  let m2 := group_cmd_entry_meta initial_ctx_meta meta0
  let r := init m2 invoked_subcommand
  let m3 := metaSet r.1 instance_key r.2.2
  if invoked_subcommand = Option.none ∧ truthy (metaGetD m3 show_help_key (.bool true))
  then (m3, r.2.1 ++ [helpText])
  else (m3, r.2.1)

/-!
`OutputFormatter.run_command`, Unix path, after the child has exited (lines
414-435): on a non-zero return code, print the failure message when `not
suppress and error_handling`, and `sys.exit(returncode)` when
`error_handling`; otherwise, when `parse_json`, return `json.loads(stdout)`
or, on a decode error, report it when `not suppress` and return `{}`;
otherwise return a namespace carrying the return code and the captured
output.  `silent=True` forces `suppress=True` and `error_handling=False`
(lines 329-333).  The JSON decoder is a parameter of the model (the code
delegates to `json.loads`); a decode failure carries the message, line and
column that the printed report interpolates.
-/

/-- Result of a JSON decode failure: message, line and column. -/
structure JsonError : Type where
  msg : String
  lineno : Nat
  colno : Nat

/-- Value returned by `run_command`: a decoded JSON value (under
`parse_json`) or a `SimpleNamespace` with return code and captured output. -/
inductive RunRet : Type where
  | json (v : PyVal) : RunRet
  | ns (returncode : Int) (stdout : String) (stderr : String) : RunRet

/-- Outcome of `run_command`: either the whole controlling process terminates
via `sys.exit(code)`, or a value is returned to the caller. -/
inductive RunOutcome : Type where
  | exited (code : Int) : RunOutcome
  | returned (v : RunRet) : RunOutcome

/-- Failure message printed on a non-zero child exit. -/
def failure_msg (returncode : Int) : String :=
  "Command failed with return code " ++ toString returncode ++ "."

/-- Report printed on a JSON decode error. -/
def decode_error_msg (e : JsonError) : String :=
  "JSON decode error: " ++ e.msg ++ " at line " ++ toString e.lineno
    ++ " column " ++ toString e.colno

/-- Model of `run_command`'s handling of the finished child (lines 329-333
and 414-435): given the decoder, the child's return code and captured output,
and the `suppress`/`error_handling`/`parse_json`/`silent` options, produce
the outcome and the printed messages. -/
def run_command_result (loads : String → Except JsonError PyVal)
    (returncode : Int) (stdout : String)
    (suppress error_handling parse_json silent : Bool) : RunOutcome × List String :=
  let sup := if silent then true else suppress
  let eh := if silent then false else error_handling
  if returncode ≠ 0 ∧ eh then
    (.exited returncode, if ¬ sup then [failure_msg returncode] else [])
  else if parse_json then
    match loads stdout with
    | .ok v => (.returned (.json v), [])
    | .error e =>
      (.returned (.json (.dict [])), if ¬ sup then [decode_error_msg e] else [])
  else
    (.returned (.ns returncode stdout ""), [])

/-- Model of `run_command_and_parse_json` (lines 446-447): `run_command` with
`suppress=True`, `parse_json=True` and the given `error_handling`. -/
def run_command_and_parse_json (loads : String → Except JsonError PyVal)
    (returncode : Int) (stdout : String) (error_handling : Bool) :
    RunOutcome × List String :=
  run_command_result loads returncode stdout true error_handling true false

/-!
`forward_signal` (lines 390-394), the SIGINT handler installed while the
child runs: forward the signal to the child exactly when `process.poll()` is
`None`, i.e. when the child is still alive at the moment the handler runs.
`poll` is modelled as `Option Int` (`none` = still running, `some code` =
already exited with `code`); the result is the list of signals sent to the
child by this delivery.
-/

/-- Model of the `forward_signal` handler: the signals sent to the child when
the handler runs with the given `process.poll()` observation. -/
def forward_signal (poll : Option Int) (signum : Nat) : List Nat :=
  if poll.isNone then [signum] else []

/-!
`RichGroup.invoke` (lines 106-119): a `UsageError`/`BadOptionUsage` raised
while invoking is caught; unless the exception already carries the
`dying_and_help_printed` mark, the frame echoes the relevant node's help text
(the invoked subcommand's help when `ctx.invoked_subcommand` is set, else its
own), marks the exception, and clears `exc.ctx` so that click's standalone
handler will not print its own usage block; the exception is then re-raised.
The exception propagates outward through every enclosing `RichGroup.invoke`
frame; click's standalone `main` (external library) finally shows the
exception (printing a usage block from `exc.ctx` when it is still set) and
terminates with the `UsageError` exit code 2.
-/

/-- Mutable state carried on a propagating usage error: the
`dying_and_help_printed` mark and whether `exc.ctx` is still set. -/
structure UsageExc : Type where
  dying_and_help_printed : Bool
  has_ctx : Bool

/-- Model of the `except` clause of one `RichGroup.invoke` frame, with
`helpText` the help this frame would echo (its invoked subcommand's help
when one was recorded, its own otherwise): echo once, mark, clear
`exc.ctx`. -/
def invoke_usage_catch (helpText : String) (e : UsageExc) : UsageExc × List String :=
  if e.dying_and_help_printed then (e, [])
  else ({ dying_and_help_printed := true, has_ctx := false }, [helpText])

/-- Propagation of a usage error outward through the enclosing
`RichGroup.invoke` frames, innermost first. -/
def propagate_usage_error (frames : List String) (e : UsageExc) :
    UsageExc × List String :=
  match frames with
  | [] => (e, [])
  | h :: rest =>
    let r1 := invoke_usage_catch h e
    let r2 := propagate_usage_error rest r1.1
    (r2.1, r1.2 ++ r2.2)

/-- Embedding of click's standalone `main` handling of a `UsageError`
(external library contract): after the error has propagated through the
enclosing frames, print the error's own usage block when `exc.ctx` is still
set, and terminate the process with the `UsageError` exit code 2.  Result:
the exit code and everything printed for this failed resolution. -/
def dispatch_usage_error (frames : List String) (e : UsageExc) :
    Int × List String :=
  let r := propagate_usage_error frames e
  (2, r.2 ++ (if r.1.has_ctx then ["USAGE_BLOCK"] else []))

/-!
Helper lemmas shared by the claims below.
-/

/-- Helper: a key occurring among the keys of an association list has a
successful lookup. -/
theorem lookup_isSome_of_mem_keys {α : Type} {l : List (String × α)} {k : String}
    (h : k ∈ l.map Prod.fst) : (List.lookup k l).isSome = true := by
  induction l with
  | nil => simp at h
  | cons hd tl ih =>
    cases hd with
    | mk k1 v1 =>
      by_cases hk : k = k1
      · subst hk
        rw [List.lookup_cons_self]
        rfl
      · have h' : k = k1 ∨ k ∈ tl.map Prod.fst := by simpa using h
        have hmem : k ∈ tl.map Prod.fst := h'.resolve_left hk
        rw [List.lookup_cons]
        simp only [beq_false_of_ne hk]
        exact ih hmem

/-- Helper: a successful lookup comes from an entry of the association
list. -/
theorem mem_of_lookup_eq_some {α : Type} {l : List (String × α)} {k : String}
    {v : α} (h : List.lookup k l = some v) : (k, v) ∈ l := by
  induction l with
  | nil => simp at h
  | cons hd tl ih =>
    cases hd with
    | mk k1 v1 =>
      by_cases hk : k = k1
      · subst hk
        rw [List.lookup_cons_self] at h
        have hv := Option.some.inj h
        subst hv
        exact List.mem_cons_self _ _
      · rw [List.lookup_cons] at h
        simp only [beq_false_of_ne hk] at h
        exact List.mem_cons_of_mem _ (ih h)

/-- C10: for every command invocation, the framework post-processes the
callback's return value: `None` produces no output; a list is echoed one
element per line; a dict is echoed as one "key: value" line per entry, list
values joined by ", "; any other non-None result is echoed as is; and in all
cases the original return value is passed through unchanged to the caller. -/
theorem c10_return_value_postprocessing :
    (∀ r : PyVal, (rich_command_invoke r).2 = r) ∧
    (rich_command_invoke .none).1 = [] ∧
    (∀ xs : List PyVal, (rich_command_invoke (.list xs)).1 = xs.map pyStr) ∧
    (∀ kvs : List (String × PyVal), (rich_command_invoke (.dict kvs)).1 =
      kvs.map (fun kv => kv.1 ++ ": " ++ (match kv.2 with
        | .list ys => String.intercalate ", " (ys.map pyStr)
        | w => pyStr w))) ∧
    (∀ b, (rich_command_invoke (.bool b)).1 = [pyStr (.bool b)]) ∧
    (∀ n : Int, (rich_command_invoke (.int n)).1 = [pyStr (.int n)]) ∧
    (∀ s, (rich_command_invoke (.str s)).1 = [pyStr (.str s)]) := by
  refine ⟨fun r => ?_, rfl, fun xs => rfl, fun kvs => rfl, fun b => rfl,
    fun n => rfl, fun s => rfl⟩
  cases r <;> rfl

/-- C1: command resolution over a sibling registry: an exact name match wins
immediately; otherwise, with `ms` the registered names starting with the
typed token (case-sensitively), zero matches leave the token unresolved, a
unique match resolves to the command registered under that full name, and
several matches fail resolution while echoing the full conflict set. -/
theorem c1_abbreviation_resolution (α : Type) (commands : List (String × α))
    (p : String) :
    (∀ c, List.lookup p commands = some c → get_command commands p = (some c, [])) ∧
    (List.lookup p commands = Option.none →
      (((commands.map Prod.fst).filter (fun x => py_startswith x p)) = [] →
        get_command commands p = (Option.none, [])) ∧
      (∀ m, ((commands.map Prod.fst).filter (fun x => py_startswith x p)) = [m] →
        get_command commands p = (List.lookup m commands, []) ∧
          (List.lookup m commands).isSome = true) ∧
      (∀ m1 m2 ms, ((commands.map Prod.fst).filter (fun x => py_startswith x p))
          = m1 :: m2 :: ms →
        get_command commands p = (Option.none, [not_unique_msg p (m1 :: m2 :: ms)]))) := by
  constructor
  · intro c hc
    simp only [get_command, hc]
  · intro hnone
    refine ⟨?_, ?_, ?_⟩
    · intro hf
      simp only [get_command, hnone, hf]
    · intro m hf
      constructor
      · simp only [get_command, hnone, hf]
      · apply lookup_isSome_of_mem_keys
        have hm : m ∈ (commands.map Prod.fst).filter (fun x => py_startswith x p) := by
          rw [hf]; exact List.mem_singleton_self m
        exact (List.mem_filter.mp hm).1
    · intro m1 m2 ms hf
      simp only [get_command, hnone, hf]

/-- Witness for C1: in the registry of the demo's config group, the typed
token "st" abbreviates exactly one name and resolves to the command
registered under the full name "status". -/
theorem c1_abbreviation_resolution_witness :
    get_command [("set", (1 : Nat)), ("show", 2), ("status", 3)] "st" = (some 3, []) := by
  have h := ((c1_abbreviation_resolution Nat [("set", 1), ("show", 2), ("status", 3)]
    "st").2 rfl).2.1 "status" (by decide)
  exact h.1.trans rfl

/-- C6: whenever resolution succeeds with a command, the name it reports is
the matched command's own canonical `name` attribute (never the typed token);
over a registry whose entries are registered under their command's name, the
reported name is therefore the full registered sibling name, for all typed
tokens including proper abbreviations. -/
theorem c6_resolution_reports_canonical_name (α : Type)
    (commands : List (String × Cmd α)) (p : String) (rest args : List String)
    (n : Option String) (c : Cmd α) (res : Bool)
    (h : resolve_command commands p rest res = .ok (n, some c, args)) :
    n = some c.name ∧
      ((∀ kv ∈ commands, (kv.2 : Cmd α).name = kv.1) →
        c.name ∈ commands.map Prod.fst) := by
  unfold resolve_command base_resolve_command at h
  cases hg : (get_command commands p).1 with
  | none =>
    rw [hg] at h
    cases res with
    | true => simp at h
    | false => simp at h
  | some cmd =>
    rw [hg] at h
    simp only [Except.ok.injEq, Prod.mk.injEq] at h
    obtain ⟨hn, hc, _⟩ := h
    have hcmd : cmd = c := Option.some.inj hc
    subst hcmd
    refine ⟨hn.symm, fun hcanon => ?_⟩
    have hsrc : ∃ k, List.lookup k commands = some cmd := by
      unfold get_command at hg
      cases hl : List.lookup p commands with
      | some rv =>
        rw [hl] at hg
        exact ⟨p, by rw [hl, Option.some.inj hg]⟩
      | none =>
        rw [hl] at hg
        cases hf : (commands.map Prod.fst).filter (fun x => py_startswith x p) with
        | nil => rw [hf] at hg; simp at hg
        | cons m tl =>
          cases tl with
          | nil =>
            rw [hf] at hg
            exact ⟨m, hg⟩
          | cons m2 tl2 =>
            rw [hf] at hg
            simp at hg
    obtain ⟨k, hk⟩ := hsrc
    have hmem := mem_of_lookup_eq_some hk
    have hname := hcanon (k, cmd) hmem
    simp only at hname
    rw [hname]
    exact List.mem_map.mpr ⟨(k, cmd), hmem, rfl⟩

/-- Witness for C6: with the demo's nested group registered under its full
name "resource", the abbreviated token "r" resolves and the reported name is
the full canonical name of the matched node. -/
theorem c6_resolution_reports_canonical_name_witness :
    (some "resource" : Option String) = some (Cmd.mk "resource" (0 : Nat)).name ∧
      (Cmd.mk "resource" (0 : Nat)).name ∈
        ([("resource", Cmd.mk "resource" (0 : Nat))].map Prod.fst) := by
  have h := c6_resolution_reports_canonical_name Nat
    [("resource", Cmd.mk "resource" (0 : Nat))] "r" [] [] (some "resource")
    (Cmd.mk "resource" (0 : Nat)) false rfl
  refine ⟨h.1, h.2 ?_⟩
  intro kv hkv
  simp only [List.mem_singleton] at hkv
  subst hkv
  rfl

/-- C2 counterexample: the wrapper does not test presence of the registry
entry but Python truthiness of the fetched value, so with an entry present
under the key but storing a falsy value (here `False`, as the demo itself
stores under the meta key "verbose"), the lookup succeeds yet the wrapper
still raises "instance not found" — refuting the claimed "if and only if no
registry entry exists". -/
theorem c2_wrapper_truthiness_cex :
    (List.lookup "app" ([("app", PyVal.bool false)] : Meta)).isSome = true ∧
      wrapped_fn [("app", PyVal.bool false)] "app" (fun _ _ => (0 : Nat)) [] =
        .error (instance_not_found_msg "app") :=
  ⟨rfl, rfl⟩

/-- C2 (amended): the wrapper raises the "instance not found" error exactly
when the value fetched from the registry under `instance_key` is falsy
(absent keys fetch `None`, hence always raise); when the fetched value is
truthy it invokes the original callback with that stored instance prepended
to the argument list. -/
theorem c2_wrapper_instance_binding (α : Type) (meta : Meta) (key : String)
    (command_fn : PyVal → List PyVal → α) (args : List PyVal) :
    (truthy (metaGet meta key) = false →
      wrapped_fn meta key command_fn args = .error (instance_not_found_msg key)) ∧
    (truthy (metaGet meta key) = true →
      wrapped_fn meta key command_fn args = .ok (command_fn (metaGet meta key) args)) ∧
    (List.lookup key meta = Option.none →
      wrapped_fn meta key command_fn args = .error (instance_not_found_msg key)) := by
  refine ⟨fun hf => ?_, fun ht => ?_, fun habs => ?_⟩
  · simp only [wrapped_fn, hf]
    rfl
  · simp only [wrapped_fn, ht]
    rfl
  · have hf : truthy (metaGet meta key) = false := by
      simp [metaGet, habs, truthy]
    simp only [wrapped_fn, hf]
    rfl

/-- Witness for C2 (amended): with the constructed group instance stored
under the key "demo", the wrapper calls the callback with the instance
prepended. -/
theorem c2_wrapper_instance_binding_witness :
    wrapped_fn [("demo", PyVal.str "inst")] "demo" (fun v _ => pyStr v) []
      = .ok "inst" :=
  ((c2_wrapper_instance_binding String [("demo", PyVal.str "inst")] "demo"
    (fun v _ => pyStr v) []).2.1 rfl).trans rfl

/-- Helper: the meta returned by `group_cmd` is the initializer's meta with
the constructed instance stored under `instance_key`, whichever help branch
is taken. -/
theorem group_cmd_fst (initial_ctx_meta : Meta)
    (init : Meta → Option String → Meta × List String × PyVal)
    (instance_key : String) (meta0 : Meta) (invoked_subcommand : Option String)
    (helpText : String) :
    (group_cmd initial_ctx_meta init instance_key meta0 invoked_subcommand helpText).1
      = metaSet (init (group_cmd_entry_meta initial_ctx_meta meta0) invoked_subcommand).1
          instance_key
          (init (group_cmd_entry_meta initial_ctx_meta meta0) invoked_subcommand).2.2 := by
  simp only [group_cmd]
  split
  · rfl
  · rfl

/-- C3 counterexample: an initializer that echoes its own output (as the
demo's `MainApp.__init__` does under `--verbose`) and leaves the
show-help flag set makes the group emit the initializer's output AND the
help text, so the output is neither exactly the help text nor exactly the
initializer's output — refuting "exactly one of two things is output". -/
theorem c3_help_or_output_cex :
    (group_cmd [] (fun m _ => (m, ["Verbose mode enabled"], PyVal.str "inst"))
        "demo" [] Option.none "HELP").2 = ["Verbose mode enabled", "HELP"] ∧
      ¬ ((group_cmd [] (fun m _ => (m, ["Verbose mode enabled"], PyVal.str "inst"))
            "demo" [] Option.none "HELP").2 = ["HELP"] ∨
         (group_cmd [] (fun m _ => (m, ["Verbose mode enabled"], PyVal.str "inst"))
            "demo" [] Option.none "HELP").2 = ["Verbose mode enabled"]) := by
  have h : (group_cmd [] (fun m _ => (m, ["Verbose mode enabled"], PyVal.str "inst"))
      "demo" [] Option.none "HELP").2 = ["Verbose mode enabled", "HELP"] := rfl
  refine ⟨h, ?_⟩
  rw [h]
  decide

/-- C3 (amended): when a group is invoked with no subcommand, the help text
is emitted exactly once, after the initializer's own output, if and only if
the show-help flag (set to true before the initializer runs) is still truthy
in the final meta; when the initializer cleared the flag, the output is
exactly the initializer's own output and the help text never appears. -/
theorem c3_help_iff_flag (initial_ctx_meta : Meta)
    (init : Meta → Option String → Meta × List String × PyVal)
    (instance_key : String) (meta0 : Meta) (helpText : String) :
    (truthy (metaGetD
        (group_cmd initial_ctx_meta init instance_key meta0 Option.none helpText).1
        show_help_key (.bool true)) = false →
      (group_cmd initial_ctx_meta init instance_key meta0 Option.none helpText).2
        = (init (group_cmd_entry_meta initial_ctx_meta meta0) Option.none).2.1) ∧
    (truthy (metaGetD
        (group_cmd initial_ctx_meta init instance_key meta0 Option.none helpText).1
        show_help_key (.bool true)) = true →
      (group_cmd initial_ctx_meta init instance_key meta0 Option.none helpText).2
        = (init (group_cmd_entry_meta initial_ctx_meta meta0) Option.none).2.1
            ++ [helpText]) := by
  rw [group_cmd_fst]
  constructor
  · intro hflag
    simp only [group_cmd]
    split
    · rename_i hcond
      rw [hflag] at hcond
      simp at hcond
    · rfl
  · intro hflag
    simp only [group_cmd]
    split
    · rfl
    · rename_i hcond
      rw [hflag] at hcond
      simp at hcond

/-- Witness for C3 (amended): an initializer that clears the flag and echoes
its own summary (as the demo's `ResourceCommand.__init__` does) yields
exactly that summary and no help text. -/
theorem c3_help_iff_flag_witness :
    (group_cmd []
        (fun m _ => (metaSet m show_help_key (.bool false),
          ["Resource Management Summary"], PyVal.str "inst"))
        "resource" [] Option.none "HELP").2 = ["Resource Management Summary"] :=
  (c3_help_iff_flag []
    (fun m _ => (metaSet m show_help_key (.bool false),
      ["Resource Management Summary"], PyVal.str "inst"))
    "resource" [] "HELP").1 rfl

/-- C4 counterexample: through `run_command_and_parse_json` (which the source
defines with `suppress=True`), malformed output yields the empty structure
but NO reported decode error — the report is printed only when output is not
suppressed — refuting the claimed unconditional "reports a decode error". -/
theorem c4_parse_json_cex :
    (run_command_and_parse_json (fun _ => .error ⟨"Expecting value", 1, 1⟩)
        0 "not json" true).2 = [] ∧
      ¬ decode_error_msg ⟨"Expecting value", 1, 1⟩ ∈
        (run_command_and_parse_json (fun _ => .error ⟨"Expecting value", 1, 1⟩)
          0 "not json" true).2 :=
  ⟨rfl, List.not_mem_nil _⟩

/-- C4 (amended): whenever `run_command` with `parse_json` reaches the decode
step (zero exit code, or effective error handling disabled), valid output
returns exactly the directly decoded value; invalid output returns the empty
structure and never raises, with the decode error (carrying the decoder's
message, line and column) reported exactly when output is not suppressed
(`suppress` false and `silent` false). -/
theorem c4_parse_json_round_trip (loads : String → Except JsonError PyVal)
    (returncode : Int) (stdout : String) (suppress error_handling silent : Bool)
    (hreach : returncode = 0 ∨ (if silent then false else error_handling) = false) :
    (∀ v, loads stdout = .ok v →
      run_command_result loads returncode stdout suppress error_handling true silent
        = (.returned (.json v), [])) ∧
    (∀ e, loads stdout = .error e →
      run_command_result loads returncode stdout suppress error_handling true silent
        = (.returned (.json (.dict [])),
            if ¬ (if silent then true else suppress) then [decode_error_msg e]
            else [])) := by
  have hcond : ¬ (returncode ≠ 0 ∧ (if silent then false else error_handling) = true) := by
    rcases hreach with h0 | heh
    · intro hc
      exact hc.1 h0
    · intro hc
      rw [heh] at hc
      exact Bool.false_ne_true hc.2
  constructor
  · intro v hv
    simp only [run_command_result, hv]
    rw [if_neg hcond]
    simp
  · intro e he
    simp only [run_command_result, he]
    rw [if_neg hcond]
    simp

/-- Witness for C4 (amended): a successful decode is returned as the decoded
value with nothing printed. -/
theorem c4_parse_json_round_trip_witness :
    run_command_result (fun _ => .ok (.int 42)) 0 "42" false true true false
      = (.returned (.json (.int 42)), []) :=
  (c4_parse_json_round_trip (fun _ => .ok (.int 42)) 0 "42" false true false
    (Or.inl rfl)).1 (.int 42) rfl

/-- C5 counterexample: on a non-zero exit with `error_handling` enabled but
`suppress=True` (exactly the `run_command_and_parse_json` configuration), the
runner terminates with the child's exit code but prints NO failure message —
refuting the claimed unconditional "prints a failure message and
terminates". -/
theorem c5_error_handling_cex :
    run_command_result (fun _ => .ok PyVal.none) 1 "out" true true false false
      = (.exited 1, []) ∧
      ¬ failure_msg 1 ∈
        (run_command_result (fun _ => .ok PyVal.none) 1 "out" true true false false).2 :=
  ⟨rfl, List.not_mem_nil _⟩

/-- C5 (amended): on a non-zero child exit, when effective error handling is
enabled (`error_handling` true and `silent` false) the runner terminates the
whole process with the child's exit code, printing the failure message
exactly when output is not suppressed; when effective error handling is
disabled and `parse_json` is off, the runner returns a result object carrying
the child's exit code and captured output. -/
theorem c5_nonzero_exit_handling (loads : String → Except JsonError PyVal)
    (returncode : Int) (stdout : String) (suppress error_handling parse_json silent : Bool)
    (hrc : returncode ≠ 0) :
    ((if silent then false else error_handling) = true →
      run_command_result loads returncode stdout suppress error_handling parse_json silent
        = (.exited returncode,
            if ¬ (if silent then true else suppress) then [failure_msg returncode]
            else [])) ∧
    ((if silent then false else error_handling) = false → parse_json = false →
      run_command_result loads returncode stdout suppress error_handling parse_json silent
        = (.returned (.ns returncode stdout ""), [])) := by
  constructor
  · intro heh
    simp only [run_command_result]
    rw [if_pos ⟨hrc, heh⟩]
  · intro heh hpj
    simp only [run_command_result, hpj]
    have hcond : ¬ (returncode ≠ 0 ∧ (if silent then false else error_handling) = true) := by
      intro hc
      rw [heh] at hc
      exact Bool.false_ne_true hc.2
    rw [if_neg hcond]
    simp

/-- Witness for C5 (amended): a failing child with default options prints the
failure message and terminates with the child's exit code; with error
handling disabled the result object carries the exit code and output. -/
theorem c5_nonzero_exit_handling_witness :
    run_command_result (fun _ => .ok PyVal.none) 1 "boom" false true false false
      = (.exited 1, [failure_msg 1]) ∧
    run_command_result (fun _ => .ok PyVal.none) 1 "boom" false false false false
      = (.returned (.ns 1 "boom" ""), []) := by
  constructor
  · have h := (c5_nonzero_exit_handling (fun _ => .ok PyVal.none) 1 "boom"
      false true false false (by decide)).1 rfl
    simpa using h
  · exact (c5_nonzero_exit_handling (fun _ => .ok PyVal.none) 1 "boom"
      false false false false (by decide)).2 rfl rfl

/-- Helper: the nested recursion of `group_from_class` builds each declared
nested class with its attribute name lower-cased and this group's
`instance_key` as parent key. -/
theorem group_from_class_nested_eq_map (nested : List ClassDef) (parent_key : String) :
    group_from_class_nested nested parent_key
      = nested.map (fun c =>
          group_from_class c (some c.attrName.toLower) (some parent_key)) := by
  induction nested with
  | nil => rfl
  | cons c rest ih =>
    simp only [group_from_class_nested, ih, List.map_cons]

/-- C7: the computed `instance_key` equals the group's name when the parent
key is empty (absent or the empty string, the root case) and equals the
parent key joined with the name by the fixed separator "." otherwise; and
every declared nested group is built recursively with this group's
`instance_key` as its parent key. -/
theorem c7_instance_key_derivation (cls : ClassDef) (name : Option String)
    (parent_key : Option String) :
    ((parent_key = Option.none ∨ parent_key = some "") →
      (group_from_class cls name parent_key).instanceKey
        = (group_from_class cls name parent_key).name) ∧
    (∀ p, parent_key = some p → p ≠ "" →
      (group_from_class cls name parent_key).instanceKey
        = p ++ "." ++ (group_from_class cls name parent_key).name) ∧
    ((group_from_class cls name parent_key).children
      = cls.nested.map (fun c =>
          group_from_class c (some c.attrName.toLower)
            (some (group_from_class cls name parent_key).instanceKey))) := by
  cases cls with
  | mk attrName className nested =>
    refine ⟨?_, ?_, ?_⟩
    · intro hp
      rcases hp with hp | hp <;>
        simp [group_from_class, instance_key_of, hp, GroupNode.instanceKey, GroupNode.name]
    · intro p hp hne
      simp [group_from_class, instance_key_of, hp, hne, GroupNode.instanceKey, GroupNode.name]
    · simp [group_from_class, GroupNode.children, GroupNode.instanceKey, ClassDef.nested,
        group_from_class_nested_eq_map]

/-- Witness for C7: the demo tree — the root group "demo" gets `instance_key`
equal to its own name, and a nested group declared under the attribute
"config" is built with parent key "demo", so its key is "demo.config". -/
theorem c7_instance_key_derivation_witness :
    (group_from_class (.mk "" "MainApp" [.mk "config" "ConfigCommand" []])
        (some "demo") Option.none).instanceKey
      = (group_from_class (.mk "" "MainApp" [.mk "config" "ConfigCommand" []])
        (some "demo") Option.none).name ∧
    (group_from_class (.mk "config" "ConfigCommand" []) (some "config")
        (some "demo")).instanceKey
      = "demo" ++ "." ++ (group_from_class (.mk "config" "ConfigCommand" [])
        (some "config") (some "demo")).name :=
  ⟨(c7_instance_key_derivation (.mk "" "MainApp" [.mk "config" "ConfigCommand" []])
      (some "demo") Option.none).1 (Or.inl rfl),
   (c7_instance_key_derivation (.mk "config" "ConfigCommand" []) (some "config")
      (some "demo")).2.1 "demo" rfl (by decide)⟩

/-- C8: while the runner manages a child, a delivered interrupt signal is
forwarded to the child if and only if the child is still alive
(`process.poll()` is `None`) at delivery time; once the child has exited,
nothing is forwarded. -/
theorem c8_forward_signal_iff_alive (poll : Option Int) (signum : Nat) :
    (poll = Option.none → forward_signal poll signum = [signum]) ∧
    (poll ≠ Option.none → forward_signal poll signum = []) := by
  cases poll with
  | none => exact ⟨fun _ => rfl, fun h => absurd rfl h⟩
  | some code =>
    refine ⟨fun h => ?_, fun _ => rfl⟩
    exact absurd h (by simp)

/-- Witness for C8: a SIGINT (2) delivered while the child runs is forwarded;
after the child exited with code 0, nothing is forwarded. -/
theorem c8_forward_signal_iff_alive_witness :
    forward_signal Option.none 2 = [2] ∧ forward_signal (some 0) 2 = [] :=
  ⟨(c8_forward_signal_iff_alive Option.none 2).1 rfl,
   (c8_forward_signal_iff_alive (some 0) 2).2 (by simp)⟩

/-- Helper: a usage error already marked `dying_and_help_printed` propagates
through any further enclosing frames unchanged with no output. -/
theorem propagate_usage_error_marked (frames : List String) (e : UsageExc)
    (h : e.dying_and_help_printed = true) :
    propagate_usage_error frames e = (e, []) := by
  induction frames with
  | nil => rfl
  | cons hd tl ih =>
    simp only [propagate_usage_error, invoke_usage_catch, h, if_true, ih,
      List.nil_append]

/-- C9: a fresh usage error (unknown command or ambiguous abbreviation)
propagating from a failed resolution makes the nearest enclosing frame print
its help text exactly once — every outer frame and click's standalone
handler stay silent — and the process terminates with the usage-error exit
code 2 instead of crashing. -/
theorem c9_usage_error_help_once (h : String) (rest : List String) (e : UsageExc)
    (hfresh : e.dying_and_help_printed = false) :
    dispatch_usage_error (h :: rest) e = (2, [h]) := by
  simp only [dispatch_usage_error, propagate_usage_error, invoke_usage_catch, hfresh,
    Bool.false_eq_true, if_false, propagate_usage_error_marked]
  rfl

/-- Witness for C9: a fresh usage error inside two nested groups prints only
the innermost help text and exits with code 2. -/
theorem c9_usage_error_help_once_witness :
    dispatch_usage_error ["resource help", "demo help"]
      ⟨false, true⟩ = (2, ["resource help"]) :=
  c9_usage_error_help_once "resource help" ["demo help"] ⟨false, true⟩ rfl
